import Mathlib

/-!
# Verification of the data-streaming / pagination core (`python-generators-0x00`)

Shallow embedding of the cursor-backed incremental data producers of the
repository: row streaming (`0-stream_users.py`), batch streaming and filtering
(`1-batch_processing.py`), offset-based lazy pagination (`2-lazy_paginate.py`),
the streaming average (`4-stream_ages.py`), and the connection/configuration
handling shared by all of them (including `seed.py`).

The queryable data source is modelled as a fixed list of records (the result
sequence of `SELECT * FROM user_data` for a fixed table state with no
concurrent writes).  `LIMIT p OFFSET o` becomes `(table.drop o).take p` and the
cursor's `fetchmany(n)` becomes taking `n` rows from the remaining suffix.
-/

set_option autoImplicit false

namespace Generators

/--
Runtime representation of the `age` column value as seen by the Python driver.
The table schema (`seed.py`, `create_table`) declares `age DECIMAL NOT NULL`
(scale 0, hence an integral value), which the MySQL driver materialises as a
`decimal.Decimal` object (`decRep`); Python's `int(...)` coercion produces an
`int` (`intRep`).  Both carry the integral numeric value.
-/
inductive AgeVal where
  | intRep (n : Int)
  | decRep (n : Int)
deriving DecidableEq, Repr

/-- Python's `int(...)` applied to an age value: yields the integral value. -/
def AgeVal.toInt : AgeVal → Int
  | .intRep n => n
  | .decRep n => n

/-- Whether the value is represented as a Python `int` (as opposed to `Decimal`). -/
def AgeVal.isIntRep : AgeVal → Bool
  | .intRep _ => true
  | .decRep _ => false

/--
One row of `user_data` as returned by a dictionary cursor: a record with the
columns declared in `seed.py`'s `create_table`.
-/
structure Record where
  user_id : String
  name : String
  email : String
  age : AgeVal
deriving DecidableEq, Repr

/-! ## Row streaming (`0-stream_users.py`) -/

/--
`stream_users`: the sequence of rows yielded by the generator.  The generator
executes `SELECT * FROM user_data` once and yields each row of the result set
unchanged (`for row in cursor: yield row`), so the yielded sequence is the
table's result sequence itself.
-/
def stream_users (table : List Record) : List Record := table

/-! ## Offset pagination (`2-lazy_paginate.py`) -/

/--
`paginate_users(page_size, offset)`: one bounded query
`SELECT * FROM user_data LIMIT page_size OFFSET offset`, returning the
fetched page as a list.
-/
def paginate_users (table : List Record) (page_size offset : Nat) : List Record :=
  (table.drop offset).take page_size

/--
The `while True` loop of `lazy_paginate` starting from a given `offset`:
fetch a page; if it is empty (Python truthiness `if not page`), stop;
otherwise yield it and advance `offset += page_size`.
-/
def lazy_paginate_from (table : List Record) (page_size offset : Nat) :
    List (List Record) :=
  if hne : (paginate_users table page_size offset).isEmpty then []
  else
    paginate_users table page_size offset ::
      lazy_paginate_from table page_size (offset + page_size)
termination_by table.length - offset
decreasing_by
  simp only [paginate_users, List.isEmpty_eq_true, List.take_eq_nil_iff] at hne
  push_neg at hne
  have hps : 0 < page_size := Nat.pos_of_ne_zero hne.1
  have hoff : offset < table.length := by
    by_contra hge
    exact hne.2 (List.drop_eq_nil_of_le (Nat.le_of_not_lt hge))
  omega

/-- `lazy_paginate(page_size)`: the page loop started at offset 0. -/
def lazy_paginate (table : List Record) (page_size : Nat) : List (List Record) :=
  lazy_paginate_from table page_size 0

/-! ## Batch streaming and filtering (`1-batch_processing.py`) -/

/--
`stream_users_in_batches(batch_size)`: execute `SELECT * FROM user_data` once,
then repeatedly `fetchmany(batch_size)` from the remaining cursor contents
(`rows`); an empty fetch (`if not batch`) breaks the loop, a non-empty fetch
is yielded.
-/
def stream_users_in_batches (rows : List Record) (batch_size : Nat) :
    List (List Record) :=
  if hne : (rows.take batch_size).isEmpty then []
  else
    rows.take batch_size ::
      stream_users_in_batches (rows.drop batch_size) batch_size
termination_by rows.length
decreasing_by
  simp only [List.isEmpty_eq_true, List.take_eq_nil_iff] at hne
  push_neg at hne
  have hbs : 0 < batch_size := Nat.pos_of_ne_zero hne.1
  have hrows : 0 < rows.length := List.length_pos.mpr hne.2
  simp only [List.length_drop]
  omega

/-- The filter predicate of `batch_processing`: `int(user["age"]) > 25`. -/
def age_over_25 (user : Record) : Bool := user.age.toInt > 25

/--
`batch_processing(batch_size)`: for each batch from
`stream_users_in_batches`, keep the users with `int(user["age"]) > 25`
(`filtered_list`); yield it only when it is non-empty
(`if filtered_list: yield filtered_list`).
-/
def batch_processing (table : List Record) (batch_size : Nat) :
    List (List Record) :=
  ((stream_users_in_batches table batch_size).map
      (fun batch => batch.filter age_over_25)).filter
    (fun filtered_list => !filtered_list.isEmpty)

/-! ## Streaming average (`4-stream_ages.py`) -/

/--
`stream_user_ages`: the generator executes `SELECT age FROM user_data` and
yields `int(row["age"])` for each row, so the yielded sequence is the list of
integer-coerced ages of the table's rows.
-/
def stream_user_ages (table : List Record) : List Int :=
  table.map (fun row => row.age.toInt)

/--
`calculate_average_age`: fold over `stream_user_ages` accumulating
`total += age` and `count += 1`, then
`average = total / count if count > 0 else 0`.  The division is modelled
exactly over `ℚ` (the Python code computes and prints this quotient).
-/
def calculate_average_age (table : List Record) : Rat :=
  let acc := (stream_user_ages table).foldl
    (fun tc age => (tc.1 + age, tc.2 + 1)) ((0 : Int), (0 : Nat))
  if acc.2 > 0 then (acc.1 : Rat) / (acc.2 : Rat) else 0

/-! ## Environment configuration (all modules) -/

/-- The process environment: a partial map from variable name to value. -/
def Env : Type := String → Option String

/-- `os.getenv(key, default)`. -/
def getenv (env : Env) (key default_ : String) : String :=
  (env key).getD default_

/-- The keyword arguments passed to `mysql.connector.connect`. -/
structure DbConfig where
  host : String
  user : String
  password : String
  database : String
deriving DecidableEq, Repr

/-- Connection arguments built by `get_connection` in `0-stream_users.py`
(database from `DB_NAME`). -/
def stream_users_config (env : Env) : DbConfig :=
  { host := getenv env "DB_HOST" "localhost"
    user := getenv env "DB_USER" "root"
    password := getenv env "DB_PASSWORD" ""
    database := getenv env "DB_NAME" "ALX_prodev" }

/-- Connection arguments built by `get_connection` in `1-batch_processing.py`
(database from `DB_NAME`). -/
def batch_processing_config (env : Env) : DbConfig :=
  { host := getenv env "DB_HOST" "localhost"
    user := getenv env "DB_USER" "root"
    password := getenv env "DB_PASSWORD" ""
    database := getenv env "DB_NAME" "ALX_prodev" }

/-- Connection arguments built by `get_connection` in `2-lazy_paginate.py`
(database from `DB_DATABASE`). -/
def lazy_paginate_config (env : Env) : DbConfig :=
  { host := getenv env "DB_HOST" "localhost"
    user := getenv env "DB_USER" "root"
    password := getenv env "DB_PASSWORD" ""
    database := getenv env "DB_DATABASE" "ALX_prodev" }

/-- Connection arguments built by `get_connection` in `4-stream_ages.py`
(database from `DB_DATABASE`). -/
def stream_ages_config (env : Env) : DbConfig :=
  { host := getenv env "DB_HOST" "localhost"
    user := getenv env "DB_USER" "root"
    password := getenv env "DB_PASSWORD" ""
    database := getenv env "DB_DATABASE" "ALX_prodev" }

/-- Connection arguments built by `connect_to_prodev` in `seed.py`
(database from `DB_NAME`). -/
def connect_to_prodev_config (env : Env) : DbConfig :=
  { host := getenv env "DB_HOST" "localhost"
    user := getenv env "DB_USER" "root"
    password := getenv env "DB_PASSWORD" ""
    database := getenv env "DB_NAME" "ALX_prodev" }

/-- An environment with no database variables set. -/
def emptyEnv : Env := fun _ => none

/-- An environment distinguishing `DB_NAME` from `DB_DATABASE`. -/
def twoNamesEnv : Env := fun key =>
  if key = "DB_NAME" then some "name_db"
  else if key = "DB_DATABASE" then some "database_db"
  else none

/-! ## Connection acquisition outcomes (`seed.py` vs the generator modules) -/

/-- Errors raised by the database driver (`mysql.connector.Error`). -/
inductive DBError where
  | connectionError (msg : String)
deriving DecidableEq, Repr

/-- An open connection handle. -/
structure Connection where
  config : DbConfig
deriving DecidableEq, Repr

/--
The body of `get_connection` in the generator modules up to the `try:` block:
the `mysql.connector.connect(...)` call stands outside any handler, so its
outcome — a connection or a raised driver error — propagates to the caller
unchanged.
-/
def get_connection_acquire (outcome : Except DBError Connection) :
    Except DBError Connection :=
  outcome

/--
`connect_to_prodev` in `seed.py`: the `connect` call is wrapped in
`try/except mysql.connector.Error`; on success the connection is returned,
on a driver error the handler prints a message and returns `None`.
-/
def connect_to_prodev (outcome : Except DBError Connection) :
    Except DBError (Option Connection) :=
  match outcome with
  | .ok conn => .ok (some conn)
  | .error _ => .ok none

/-! ## Connection lifecycle of the streaming generators

Each streaming generator has the shape

```
with get_connection() as connection:
    with connection.cursor(dictionary=True) as cursor:
        cursor.execute(query)
        ... yield items ...
```

where `get_connection` is a `@contextmanager` whose body is
`try: yield connection finally: connection.close()`.  We embed the generator
protocol as a state machine over the sequence of items the body would yield:
the consumer issues `next` (pull one item), `close` (abandon the generator —
`GeneratorExit` is raised at the suspension point), or `throwErr` (an
exception is raised at the suspension point during the iteration).  The
`with` statement guarantees that leaving the body — normally, by
`GeneratorExit`, or by an exception — runs `connection.close()` exactly once;
the traces record the observable resource events.
-/

/-- Observable events of one generator run. -/
inductive DBEvent (α : Type) where
  | acquire
  | yielded (item : α)
  | release
  | raised
deriving DecidableEq, Repr

/-- Generator lifecycle states (spec: UNSTARTED / ACTIVE / CLOSED; EXHAUSTED
immediately releases and closes). -/
inductive GenState (α : Type) where
  | unstarted (items : List α)
  | active (remaining : List α)
  | closed
deriving DecidableEq, Repr

/-- What the consumer does to the generator at each step. -/
inductive GenAction where
  | next
  | close
  | throwErr
deriving DecidableEq, Repr

/--
One interaction step of the generator protocol.

* `next` on an unstarted generator runs the body to its first suspension:
  the connection is acquired; with an empty result set the loop ends, the
  `with` blocks exit (release) and `StopIteration` is raised.
* `close`/`throwErr` on an unstarted generator never runs the body, so no
  connection is ever acquired.
* `next` on an active generator yields the next item, or — when the cursor
  is exhausted — leaves the loop, releases via the `with` blocks and stops.
* `close` on an active generator raises `GeneratorExit` at the `yield`;
  the `finally` of `get_connection` releases the connection.
* `throwErr` on an active generator raises an exception at the suspension
  point; the `finally` releases the connection, then the exception
  propagates to the caller.
* a closed generator acquires and releases nothing.
-/
def genStep {α : Type} : GenState α → GenAction → GenState α × List (DBEvent α)
  | .unstarted items, .next =>
    match items with
    | [] => (.closed, [.acquire, .release])
    | item :: rest => (.active rest, [.acquire, .yielded item])
  | .unstarted _, .close => (.closed, [])
  | .unstarted _, .throwErr => (.closed, [.raised])
  | .active remaining, .next =>
    match remaining with
    | [] => (.closed, [.release])
    | item :: rest => (.active rest, [.yielded item])
  | .active _, .close => (.closed, [.release])
  | .active _, .throwErr => (.closed, [.release, .raised])
  | .closed, .next => (.closed, [])
  | .closed, .close => (.closed, [])
  | .closed, .throwErr => (.closed, [.raised])

/-- The event trace of a whole interaction sequence. -/
def genRun {α : Type} : GenState α → List GenAction → List (DBEvent α)
  | _, [] => []
  | s, act :: acts =>
    (genStep s act).2 ++ genRun (genStep s act).1 acts

/-- The state after a whole interaction sequence. -/
def genRunEnd {α : Type} : GenState α → List GenAction → GenState α
  | s, [] => s
  | s, act :: acts => genRunEnd (genStep s act).1 acts

/-- Number of `acquire` events in a trace. -/
def acquireCount {α : Type} : List (DBEvent α) → Nat
  | [] => 0
  | .acquire :: trace => acquireCount trace + 1
  | _ :: trace => acquireCount trace

/-- Number of `release` events in a trace. -/
def releaseCount {α : Type} : List (DBEvent α) → Nat
  | [] => 0
  | .release :: trace => releaseCount trace + 1
  | _ :: trace => releaseCount trace

/-- How many connections a state holds open (only ACTIVE holds one). -/
def openConnections {α : Type} : GenState α → Nat
  | .active _ => 1
  | _ => 0


/-! ## Concrete five-row table (spec scenario: ages [20, 26, 30, 18, 40]) -/

/-- Row 1 of the scenario table (stored age in decimal representation). -/
def row1 : Record := ⟨"00000000-0000-0000-0000-000000000001", "Alice", "alice@example.com", .decRep 20⟩

/-- Row 2 of the scenario table. -/
def row2 : Record := ⟨"00000000-0000-0000-0000-000000000002", "Bob", "bob@example.com", .decRep 26⟩

/-- Row 3 of the scenario table. -/
def row3 : Record := ⟨"00000000-0000-0000-0000-000000000003", "Cara", "cara@example.com", .decRep 30⟩

/-- Row 4 of the scenario table. -/
def row4 : Record := ⟨"00000000-0000-0000-0000-000000000004", "Dan", "dan@example.com", .decRep 18⟩

/-- Row 5 of the scenario table. -/
def row5 : Record := ⟨"00000000-0000-0000-0000-000000000005", "Eve", "eve@example.com", .decRep 40⟩

/-- The five-row scenario table from the spec's testable properties. -/
def demoTable : List Record := [row1, row2, row3, row4, row5]

/-! ## Lemmas about offset pagination -/

/-- With a positive page size, the pages collected from any starting offset
concatenate to the table's suffix from that offset. -/
theorem lazy_paginate_from_flatten (table : List Record) (page_size : Nat)
    (hps : 0 < page_size) :
    ∀ offset, (lazy_paginate_from table page_size offset).flatten = table.drop offset := by
  refine lazy_paginate_from.induct table page_size
    (fun offset =>
      (lazy_paginate_from table page_size offset).flatten = table.drop offset)
    ?_ ?_
  · intro offset hempty
    rw [lazy_paginate_from, dif_pos hempty]
    rw [List.isEmpty_iff] at hempty
    simp only [paginate_users, List.take_eq_nil_iff] at hempty
    rcases hempty with h0 | hnil
    · omega
    · simp [hnil]
  · intro offset hempty ih
    rw [lazy_paginate_from, dif_neg hempty]
    rw [List.flatten_cons, ih, paginate_users, ← List.drop_drop]
    exact List.take_append_drop _ _

/-- Each collected page is the page requested at the corresponding offset
(`offset + i * page_size`), and the fetch following the last collected page
returns the empty page. -/
theorem lazy_paginate_from_pages (table : List Record) (page_size : Nat) :
    ∀ offset,
      (∀ i (h : i < (lazy_paginate_from table page_size offset).length),
          (lazy_paginate_from table page_size offset).get ⟨i, h⟩ =
            paginate_users table page_size (offset + i * page_size)) ∧
        paginate_users table page_size
          (offset + (lazy_paginate_from table page_size offset).length * page_size) = [] := by
  refine lazy_paginate_from.induct table page_size
    (fun offset =>
      (∀ i (h : i < (lazy_paginate_from table page_size offset).length),
          (lazy_paginate_from table page_size offset).get ⟨i, h⟩ =
            paginate_users table page_size (offset + i * page_size)) ∧
        paginate_users table page_size
          (offset + (lazy_paginate_from table page_size offset).length * page_size) = [])
    ?_ ?_
  · intro offset hempty
    rw [lazy_paginate_from, dif_pos hempty]
    constructor
    · intro i h
      simp at h
    · simpa using List.isEmpty_iff.mp hempty
  · intro offset hempty ih
    rw [lazy_paginate_from, dif_neg hempty]
    constructor
    · intro i h
      cases i with
      | zero => simp
      | succ j =>
        rw [List.get_cons_succ]
        have hj : j < (lazy_paginate_from table page_size (offset + page_size)).length := by
          simpa [Nat.succ_lt_succ_iff] using h
        rw [ih.1 j hj]
        congr 1
        rw [Nat.succ_mul]
        omega
    · have := ih.2
      rw [List.length_cons]
      rw [Nat.succ_mul]
      have harith : offset + ((lazy_paginate_from table page_size (offset + page_size)).length * page_size + page_size) =
          offset + page_size + (lazy_paginate_from table page_size (offset + page_size)).length * page_size := by
        omega
      rw [harith]
      exact this

/-- Every page the paginator yields is non-empty. -/
theorem lazy_paginate_from_ne_nil (table : List Record) (page_size : Nat) :
    ∀ offset, ∀ page ∈ lazy_paginate_from table page_size offset, page ≠ [] := by
  refine lazy_paginate_from.induct table page_size
    (fun offset => ∀ page ∈ lazy_paginate_from table page_size offset, page ≠ [])
    ?_ ?_
  · intro offset hempty
    rw [lazy_paginate_from, dif_pos hempty]
    intro page hpage
    simp at hpage
  · intro offset hempty ih
    rw [lazy_paginate_from, dif_neg hempty]
    intro page hpage
    rcases List.mem_cons.mp hpage with rfl | hmem
    · intro hnil
      rw [hnil] at hempty
      exact hempty rfl
    · exact ih page hmem

/-! ## Lemmas about batch streaming -/

/-- With a positive batch size, the fetched batches concatenate to the whole
cursor contents (every row appears exactly once, in order). -/
theorem stream_users_in_batches_flatten :
    ∀ (rows : List Record) (batch_size : Nat), 0 < batch_size →
      (stream_users_in_batches rows batch_size).flatten = rows := by
  refine stream_users_in_batches.induct
    (fun rows batch_size => 0 < batch_size →
      (stream_users_in_batches rows batch_size).flatten = rows) ?_ ?_
  · intro rows batch_size hempty hbs
    rw [stream_users_in_batches, dif_pos hempty]
    rw [List.isEmpty_iff, List.take_eq_nil_iff] at hempty
    rcases hempty with h0 | hnil
    · omega
    · simp [hnil]
  · intro rows batch_size hempty ih hbs
    rw [stream_users_in_batches, dif_neg hempty]
    rw [List.flatten_cons, ih hbs]
    exact List.take_append_drop _ _

/-- Every yielded batch is non-empty and has at most `batch_size` rows. -/
theorem stream_users_in_batches_shape :
    ∀ (rows : List Record) (batch_size : Nat),
      ∀ batch ∈ stream_users_in_batches rows batch_size,
        batch ≠ [] ∧ batch.length ≤ batch_size := by
  refine stream_users_in_batches.induct
    (fun rows batch_size => ∀ batch ∈ stream_users_in_batches rows batch_size,
      batch ≠ [] ∧ batch.length ≤ batch_size) ?_ ?_
  · intro rows batch_size hempty
    rw [stream_users_in_batches, dif_pos hempty]
    intro batch hbatch
    simp at hbatch
  · intro rows batch_size hempty ih
    rw [stream_users_in_batches, dif_neg hempty]
    intro batch hbatch
    rcases List.mem_cons.mp hbatch with rfl | hmem
    · refine ⟨fun hnil => ?_, ?_⟩
      · rw [hnil] at hempty
        exact hempty rfl
      · rw [List.length_take]
        exact Nat.min_le_left _ _
    · exact ih batch hmem

/-- Every row of every yielded batch is a row of the cursor contents. -/
theorem stream_users_in_batches_mem :
    ∀ (rows : List Record) (batch_size : Nat),
      ∀ batch ∈ stream_users_in_batches rows batch_size,
        ∀ user ∈ batch, user ∈ rows := by
  refine stream_users_in_batches.induct
    (fun rows batch_size => ∀ batch ∈ stream_users_in_batches rows batch_size,
      ∀ user ∈ batch, user ∈ rows) ?_ ?_
  · intro rows batch_size hempty
    rw [stream_users_in_batches, dif_pos hempty]
    intro batch hbatch
    simp at hbatch
  · intro rows batch_size hempty ih
    rw [stream_users_in_batches, dif_neg hempty]
    intro batch hbatch user huser
    rcases List.mem_cons.mp hbatch with rfl | hmem
    · exact List.mem_of_mem_take huser
    · exact List.mem_of_mem_drop (ih batch hmem user huser)

/-- The batch sequence is empty exactly when the first fetch comes back empty. -/
theorem stream_users_in_batches_eq_nil_iff (rows : List Record) (batch_size : Nat) :
    stream_users_in_batches rows batch_size = [] ↔
      (rows.take batch_size).isEmpty = true := by
  constructor
  · intro h
    by_contra hne
    rw [stream_users_in_batches, dif_neg hne] at h
    exact absurd h (List.cons_ne_nil _ _)
  · intro h
    rw [stream_users_in_batches, dif_pos h]

/-- Every batch except possibly the last has length exactly `batch_size`. -/
theorem stream_users_in_batches_full :
    ∀ (rows : List Record) (batch_size : Nat),
      ∀ i (h : i + 1 < (stream_users_in_batches rows batch_size).length),
        ((stream_users_in_batches rows batch_size).get
            ⟨i, Nat.lt_of_succ_lt h⟩).length = batch_size := by
  refine stream_users_in_batches.induct
    (fun rows batch_size =>
      ∀ i (h : i + 1 < (stream_users_in_batches rows batch_size).length),
        ((stream_users_in_batches rows batch_size).get
            ⟨i, Nat.lt_of_succ_lt h⟩).length = batch_size) ?_ ?_
  · intro rows batch_size hempty
    rw [stream_users_in_batches, dif_pos hempty]
    intro i h
    simp at h
  · intro rows batch_size hempty ih
    rw [stream_users_in_batches, dif_neg hempty]
    intro i h
    cases i with
    | zero =>
      have hrest : stream_users_in_batches (rows.drop batch_size) batch_size ≠ [] := by
        intro hnil
        rw [List.length_cons, hnil] at h
        simp at h
      have hdrop : rows.drop batch_size ≠ [] := by
        intro hnil
        exact hrest ((stream_users_in_batches_eq_nil_iff _ _).mpr
          (by rw [hnil]; simp))
      have hlt : batch_size < rows.length := by
        by_contra hge
        exact hdrop (List.drop_eq_nil_of_le (Nat.le_of_not_lt hge))
      show (rows.take batch_size).length = batch_size
      rw [List.length_take]
      omega
    | succ j =>
      rw [List.get_cons_succ]
      exact ih j (by simpa [Nat.succ_lt_succ_iff] using h)

/-! ## Lemmas about batch filtering -/

/-- Dropping empty lists does not change the concatenation. -/
theorem flatten_filter_nonEmpty {α : Type} (batches : List (List α)) :
    (batches.filter (fun batch => !batch.isEmpty)).flatten = batches.flatten := by
  induction batches with
  | nil => rfl
  | cons batch batches ih =>
    by_cases h : batch.isEmpty
    · rw [List.isEmpty_iff] at h
      subst h
      simpa using ih
    · rw [List.filter_cons_of_pos (by simpa using h), List.flatten_cons,
        List.flatten_cons, ih]

/-- Filtering each chunk and concatenating is concatenating and filtering. -/
theorem flatten_map_filter {α : Type} (p : α → Bool) (batches : List (List α)) :
    (batches.map (fun batch => batch.filter p)).flatten = batches.flatten.filter p := by
  induction batches with
  | nil => rfl
  | cons batch batches ih =>
    rw [List.map_cons, List.flatten_cons, List.flatten_cons, List.filter_append, ih]

/-- A filtered list is empty exactly when no element passes the predicate. -/
theorem isEmpty_filter_eq_not_any {α : Type} (p : α → Bool) (l : List α) :
    (l.filter p).isEmpty = !l.any p := by
  induction l with
  | nil => rfl
  | cons a l ih =>
    by_cases h : p a
    · simp [List.filter_cons, h]
    · simp only [Bool.not_eq_true] at h
      simp [List.filter_cons, h, ih]

/-! ## Lemma about the streaming-average fold -/

/-- The `total += age; count += 1` fold computes the sum and the length. -/
theorem foldl_total_count (ages : List Int) :
    ∀ (total : Int) (count : Nat),
      ages.foldl (fun tc age => (tc.1 + age, tc.2 + 1)) (total, count) =
        (total + ages.sum, count + ages.length) := by
  induction ages with
  | nil =>
    intro total count
    simp
  | cons age ages ih =>
    intro total count
    rw [List.foldl_cons]
    rw [ih]
    simp only [List.sum_cons, List.length_cons, Prod.mk.injEq]
    constructor <;> omega

/-! ## Lemmas about the connection lifecycle machine -/

/-- A closed generator acquires and releases nothing and stays closed. -/
theorem genRun_closed_counts {α : Type} (acts : List GenAction) :
    acquireCount (genRun (GenState.closed : GenState α) acts) = 0 ∧
      releaseCount (genRun (GenState.closed : GenState α) acts) = 0 ∧
      genRunEnd (GenState.closed : GenState α) acts = GenState.closed := by
  induction acts with
  | nil => exact ⟨rfl, rfl, rfl⟩
  | cons act acts ih =>
    cases act <;>
      simpa [genRun, genRunEnd, genStep, acquireCount, releaseCount] using ih

/-- An active generator holds exactly one connection: along any further
interaction it acquires nothing, and its releases balance the connection
still open at the end — exactly one release once the run no longer holds
the connection. -/
theorem genRun_active_counts {α : Type} (acts : List GenAction) :
    ∀ remaining : List α,
      acquireCount (genRun (GenState.active remaining) acts) = 0 ∧
        releaseCount (genRun (GenState.active remaining) acts) +
          openConnections (genRunEnd (GenState.active remaining) acts) = 1 := by
  induction acts with
  | nil =>
    intro remaining
    simp [genRun, genRunEnd, acquireCount, releaseCount, openConnections]
  | cons act acts ih =>
    intro remaining
    cases act with
    | next =>
      cases remaining with
      | nil =>
        have h := genRun_closed_counts (α := α) acts
        simp [genRun, genRunEnd, genStep, acquireCount, releaseCount,
          h.1, h.2.1, h.2.2, openConnections]
      | cons item rest =>
        simpa [genRun, genRunEnd, genStep, acquireCount, releaseCount]
          using ih rest
    | close =>
      have h := genRun_closed_counts (α := α) acts
      simp [genRun, genRunEnd, genStep, acquireCount, releaseCount,
        h.1, h.2.1, h.2.2, openConnections]
    | throwErr =>
      have h := genRun_closed_counts (α := α) acts
      simp [genRun, genRunEnd, genStep, acquireCount, releaseCount,
        h.1, h.2.1, h.2.2, openConnections]

/-- From the unstarted state, a run acquires at most one connection, and
acquisitions balance releases up to the connection still open at the end. -/
theorem genRun_unstarted_counts {α : Type} (acts : List GenAction) (items : List α) :
    acquireCount (genRun (GenState.unstarted items) acts) ≤ 1 ∧
      acquireCount (genRun (GenState.unstarted items) acts) =
        releaseCount (genRun (GenState.unstarted items) acts) +
          openConnections (genRunEnd (GenState.unstarted items) acts) := by
  cases acts with
  | nil => simp [genRun, genRunEnd, acquireCount, releaseCount, openConnections]
  | cons act acts =>
    cases act with
    | next =>
      cases items with
      | nil =>
        have h := genRun_closed_counts (α := α) acts
        simp [genRun, genRunEnd, genStep, acquireCount, releaseCount,
          h.1, h.2.1, h.2.2, openConnections]
      | cons item rest =>
        have h := genRun_active_counts (α := α) acts rest
        simp [genRun, genRunEnd, genStep, acquireCount, releaseCount, h.1]
        omega
    | close =>
      have h := genRun_closed_counts (α := α) acts
      simp [genRun, genRunEnd, genStep, acquireCount, releaseCount,
        h.1, h.2.1, h.2.2, openConnections]
    | throwErr =>
      have h := genRun_closed_counts (α := α) acts
      simp [genRun, genRunEnd, genStep, acquireCount, releaseCount,
        h.1, h.2.1, h.2.2, openConnections]

/-- An interaction sequence ending in `close` leaves the generator closed. -/
theorem genRunEnd_close {α : Type} (acts : List GenAction) :
    ∀ s : GenState α, genRunEnd s (acts ++ [GenAction.close]) = GenState.closed := by
  induction acts with
  | nil =>
    intro s
    cases s <;> rfl
  | cons act acts ih =>
    intro s
    exact ih (genStep s act).1

/-- For any run of a generator that ends with the consumer letting go of it,
releases balance acquisitions exactly and at most one connection is ever
acquired: no connection is leaked and none is released twice. -/
theorem genRun_release_balance {α : Type} (items : List α) (acts : List GenAction) :
    releaseCount (genRun (GenState.unstarted items) (acts ++ [GenAction.close])) =
        acquireCount (genRun (GenState.unstarted items) (acts ++ [GenAction.close])) ∧
      acquireCount (genRun (GenState.unstarted items) (acts ++ [GenAction.close])) ≤ 1 := by
  have h := genRun_unstarted_counts (α := α) (acts ++ [GenAction.close]) items
  rw [genRunEnd_close] at h
  simp only [openConnections] at h
  omega
/-! ## Claims -/

/-- **C1**: for every `page_size > 0` and every fixed table state, the
concatenation of all pages yielded by `lazy_paginate(page_size)` equals the
full table's rows (no row repeated, none omitted, order preserved); the i-th
yielded page is the page requested at offset `i * page_size` (so pages are
requested at strictly increasing offsets 0, page_size, 2·page_size, …); every
yielded page is non-empty; and the fetch following the last yielded page —
the first one for which `paginate_users` returns an empty page — terminates
the sequence. -/
theorem c1_lazy_paginate_reproduces_table (table : List Record) (page_size : Nat)
    (hps : 0 < page_size) :
    (lazy_paginate table page_size).flatten = table ∧
      (∀ i (h : i < (lazy_paginate table page_size).length),
        (lazy_paginate table page_size).get ⟨i, h⟩ =
          paginate_users table page_size (i * page_size)) ∧
      (∀ page ∈ lazy_paginate table page_size, page ≠ []) ∧
      paginate_users table page_size
        ((lazy_paginate table page_size).length * page_size) = [] := by
  refine ⟨?_, ?_, ?_, ?_⟩
  · have h := lazy_paginate_from_flatten table page_size hps 0
    simpa [lazy_paginate] using h
  · intro i h
    have hp := (lazy_paginate_from_pages table page_size 0).1 i h
    simpa using hp
  · exact lazy_paginate_from_ne_nil table page_size 0
  · have hp := (lazy_paginate_from_pages table page_size 0).2
    simpa [lazy_paginate] using hp

/-- Witness for C1 at the concrete five-row table with `page_size = 2`. -/
theorem c1_witness :
    0 < 2 ∧
      ((lazy_paginate demoTable 2).flatten = demoTable ∧
        (∀ i (h : i < (lazy_paginate demoTable 2).length),
          (lazy_paginate demoTable 2).get ⟨i, h⟩ =
            paginate_users demoTable 2 (i * 2)) ∧
        (∀ page ∈ lazy_paginate demoTable 2, page ≠ []) ∧
        paginate_users demoTable 2 ((lazy_paginate demoTable 2).length * 2) = []) :=
  ⟨by decide, c1_lazy_paginate_reproduces_table demoTable 2 (by decide)⟩

/-- **C2**: for every `batch_size > 0`, every batch yielded by
`stream_users_in_batches(batch_size)` is non-empty and of length at most
`batch_size`; every batch except possibly the last has length exactly
`batch_size` (so at most one batch — the last — is shorter); the yielded
batches concatenate to the table itself, so the total number of rows across
all batches equals the table's row count; and the sequence ends the first
time a fetch returns zero rows (no empty batch is ever yielded). -/
theorem c2_stream_users_in_batches_spec (table : List Record) (batch_size : Nat)
    (hbs : 0 < batch_size) :
    (∀ batch ∈ stream_users_in_batches table batch_size,
        batch ≠ [] ∧ batch.length ≤ batch_size) ∧
      (∀ i (h : i + 1 < (stream_users_in_batches table batch_size).length),
        ((stream_users_in_batches table batch_size).get
            ⟨i, Nat.lt_of_succ_lt h⟩).length = batch_size) ∧
      (stream_users_in_batches table batch_size).flatten = table ∧
      ((stream_users_in_batches table batch_size).flatten).length = table.length := by
  refine ⟨stream_users_in_batches_shape table batch_size,
    stream_users_in_batches_full table batch_size,
    stream_users_in_batches_flatten table batch_size hbs, ?_⟩
  rw [stream_users_in_batches_flatten table batch_size hbs]

/-- Witness for C2 at the concrete five-row table with `batch_size = 2`. -/
theorem c2_witness :
    0 < 2 ∧
      ((∀ batch ∈ stream_users_in_batches demoTable 2,
          batch ≠ [] ∧ batch.length ≤ 2) ∧
        (∀ i (h : i + 1 < (stream_users_in_batches demoTable 2).length),
          ((stream_users_in_batches demoTable 2).get
              ⟨i, Nat.lt_of_succ_lt h⟩).length = 2) ∧
        (stream_users_in_batches demoTable 2).flatten = demoTable ∧
        ((stream_users_in_batches demoTable 2).flatten).length = demoTable.length) :=
  ⟨by decide, c2_stream_users_in_batches_spec demoTable 2 (by decide)⟩

/-- **C3**: for every `batch_size > 0` and every input table, every record in
every batch yielded by `batch_processing(batch_size)` satisfies the predicate
`int(age) > 25`, no yielded batch is empty, and a source batch whose records
are all filtered out is consumed and skipped: the number of yielded batches
is exactly the number of source batches containing at least one matching
record. -/
theorem c3_batch_processing_spec (table : List Record) (batch_size : Nat)
    (_hbs : 0 < batch_size) :
    (∀ batch ∈ batch_processing table batch_size,
        batch ≠ [] ∧ ∀ user ∈ batch, age_over_25 user = true) ∧
      (batch_processing table batch_size).length =
        ((stream_users_in_batches table batch_size).filter
            (fun batch => batch.any age_over_25)).length := by
  constructor
  · intro batch hbatch
    unfold batch_processing at hbatch
    rcases List.mem_filter.mp hbatch with ⟨hmap, hpred⟩
    rcases List.mem_map.mp hmap with ⟨src, hsrc, hfilter⟩
    subst hfilter
    constructor
    · simpa using hpred
    · intro user huser
      exact (List.mem_filter.mp huser).2
  · unfold batch_processing
    rw [← List.countP_eq_length_filter, ← List.countP_eq_length_filter,
      List.countP_map]
    apply List.countP_congr
    intro batch hbatch
    simp [Function.comp, isEmpty_filter_eq_not_any]

/-- Witness for C3 at the concrete five-row table with `batch_size = 2`. -/
theorem c3_witness :
    0 < 2 ∧
      ((∀ batch ∈ batch_processing demoTable 2,
          batch ≠ [] ∧ ∀ user ∈ batch, age_over_25 user = true) ∧
        (batch_processing demoTable 2).length =
          ((stream_users_in_batches demoTable 2).filter
              (fun batch => batch.any age_over_25)).length) :=
  ⟨by decide, c3_batch_processing_spec demoTable 2 (by decide)⟩

/-- **C4**: the streaming aggregator returns `sum(vi) / N` over the table's
`N` integer-coerced age values, and returns `0` on an empty table; the
division is reached only under the `count > 0` guard, so no division fault
can occur (the result is total on every table). -/
theorem c4_calculate_average_age_spec (table : List Record) :
    calculate_average_age table =
      if table.length = 0 then 0
      else ((stream_user_ages table).sum : Rat) / (table.length : Rat) := by
  have hlen : (stream_user_ages table).length = table.length :=
    List.length_map _ _
  simp only [calculate_average_age, foldl_total_count, Nat.zero_add, zero_add]
  rcases Nat.eq_zero_or_pos table.length with h | h
  · simp [h, hlen]
  · rw [if_pos (by omega), if_neg (by omega)]
    simp [hlen]

/-- **C5**: for every run of a streaming iteration — the row streamer over the
table, the batch streamer over its batches, or the with-block of a single
page fetch — and every consumer behaviour (pulling any number of elements,
closing early, or an exception at the suspension point), once the consumer
lets go of the iteration the trace contains exactly as many releases as
acquisitions and at most one acquisition: the acquired connection is released
exactly once on every exit path and no run leaks an open connection. -/
theorem c5_connection_released_exactly_once (table : List Record)
    (batch_size page_size offset : Nat) (acts : List GenAction) :
    (releaseCount (genRun (GenState.unstarted (stream_users table))
          (acts ++ [GenAction.close])) =
        acquireCount (genRun (GenState.unstarted (stream_users table))
          (acts ++ [GenAction.close])) ∧
      acquireCount (genRun (GenState.unstarted (stream_users table))
          (acts ++ [GenAction.close])) ≤ 1) ∧
    (releaseCount (genRun (GenState.unstarted (stream_users_in_batches table batch_size))
          (acts ++ [GenAction.close])) =
        acquireCount (genRun (GenState.unstarted (stream_users_in_batches table batch_size))
          (acts ++ [GenAction.close])) ∧
      acquireCount (genRun (GenState.unstarted (stream_users_in_batches table batch_size))
          (acts ++ [GenAction.close])) ≤ 1) ∧
    (releaseCount (genRun (GenState.unstarted [paginate_users table page_size offset])
          (acts ++ [GenAction.close])) =
        acquireCount (genRun (GenState.unstarted [paginate_users table page_size offset])
          (acts ++ [GenAction.close])) ∧
      acquireCount (genRun (GenState.unstarted [paginate_users table page_size offset])
          (acts ++ [GenAction.close])) ≤ 1) :=
  ⟨genRun_release_balance _ _, genRun_release_balance _ _,
    genRun_release_balance _ _⟩

/-- **C6** is falsified by `connect_to_prodev` in `seed.py`: when the driver
raises a connection error, the function does not propagate it — it swallows
the error and returns a value (`None`) in its place. -/
theorem c6_counterexample :
    connect_to_prodev (Except.error (DBError.connectionError "unreachable")) =
        Except.ok none ∧
      (connect_to_prodev (Except.error
          (DBError.connectionError "unreachable"))).isOk = true :=
  ⟨rfl, rfl⟩

/-- **C6 (amended)**: the generator modules' `get_connection` propagates a
driver connection error to its caller undecorated, with no retry and no
substitute value; but `seed.py`'s `connect_to_prodev` swallows the error and
returns `None` in its place (and wraps a successful connection in `Some`). -/
theorem c6_propagation_policy (err : DBError) (conn : Connection) :
    get_connection_acquire (Except.error err) = Except.error err ∧
      get_connection_acquire (Except.ok conn) = Except.ok conn ∧
      connect_to_prodev (Except.error err) = Except.ok none ∧
      connect_to_prodev (Except.ok conn) = Except.ok (some conn) :=
  ⟨rfl, rfl, rfl, rfl⟩

/-- **C7**: with no environment variables set, every component's connection
arguments default to host "localhost", user "root", empty password and
database "ALX_prodev"; the database name is read from `DB_NAME` in
`0-stream_users.py`, `1-batch_processing.py` and `seed.py`, but from
`DB_DATABASE` in `2-lazy_paginate.py` and `4-stream_ages.py` — the same
setting under two environment-variable names. -/
theorem c7_config_defaults :
    stream_users_config emptyEnv = ⟨"localhost", "root", "", "ALX_prodev"⟩ ∧
      batch_processing_config emptyEnv = ⟨"localhost", "root", "", "ALX_prodev"⟩ ∧
      lazy_paginate_config emptyEnv = ⟨"localhost", "root", "", "ALX_prodev"⟩ ∧
      stream_ages_config emptyEnv = ⟨"localhost", "root", "", "ALX_prodev"⟩ ∧
      connect_to_prodev_config emptyEnv = ⟨"localhost", "root", "", "ALX_prodev"⟩ ∧
      (stream_users_config twoNamesEnv).database = "name_db" ∧
      (batch_processing_config twoNamesEnv).database = "name_db" ∧
      (connect_to_prodev_config twoNamesEnv).database = "name_db" ∧
      (lazy_paginate_config twoNamesEnv).database = "database_db" ∧
      (stream_ages_config twoNamesEnv).database = "database_db" := by
  refine ⟨rfl, rfl, rfl, rfl, rfl, ?_, ?_, ?_, ?_, ?_⟩ <;> decide

/-- **C8** is falsified by the row streamer: the table stores ages in decimal
representation (schema `age DECIMAL`), and `stream_users` yields the rows
unchanged, so a record reaches the consumer whose age field is not an
integer-typed value — no coercion happens on read in the access layer. -/
theorem c8_counterexample :
    (stream_users demoTable).all (fun user => user.age.isIntRep) = false := by
  decide

/-- **C8 (amended)**: the access layer (`stream_users`, `paginate_users`,
`stream_users_in_batches`) passes table records through unchanged — each
yielded record is a record of the table, with its stored (decimal) age
representation intact; integer coercion happens only where `int(...)` is
applied: every value yielded by `stream_user_ages` is the integer coercion of
some table record's age. -/
theorem c8_age_representation (table : List Record) :
    (∀ user ∈ stream_users table, user ∈ table) ∧
      (∀ page_size offset : Nat,
        ∀ user ∈ paginate_users table page_size offset, user ∈ table) ∧
      (∀ batch_size : Nat, ∀ batch ∈ stream_users_in_batches table batch_size,
        ∀ user ∈ batch, user ∈ table) ∧
      (∀ age ∈ stream_user_ages table, ∃ user ∈ table, age = user.age.toInt) := by
  refine ⟨fun user huser => huser, ?_, ?_, ?_⟩
  · intro page_size offset user huser
    exact List.mem_of_mem_drop (List.mem_of_mem_take huser)
  · intro batch_size batch hbatch user huser
    exact stream_users_in_batches_mem table batch_size batch hbatch user huser
  · intro age hage
    rcases List.mem_map.mp hage with ⟨user, huser, hval⟩
    exact ⟨user, huser, hval.symm⟩

/-- **C9**: on the five-row table, `paginate_users(2, 4)` returns exactly the
single fifth row, `paginate_users(2, 6)` returns the empty page, and the
lazy pagination therefore yields exactly the three pages ending with the
one-row page — the empty page at offset 6 terminates the sequence. -/
theorem c9_paginate_demo :
    paginate_users demoTable 2 4 = [row5] ∧
      paginate_users demoTable 2 6 = [] ∧
      lazy_paginate demoTable 2 = [[row1, row2], [row3, row4], [row5]] := by
  refine ⟨rfl, rfl, ?_⟩
  rw [lazy_paginate, lazy_paginate_from, dif_neg (by decide),
    lazy_paginate_from, dif_neg (by decide),
    lazy_paginate_from, dif_neg (by decide),
    lazy_paginate_from, dif_pos (by decide)]
  decide

/-- **C10**: for every `batch_size > 0`, concatenating the batches yielded by
`batch_processing(batch_size)` equals filtering the table's rows directly
with the integer-coerced `age > 25` predicate, in source row order:
filtering commutes with batching. -/
theorem c10_filter_commutes_with_batching (table : List Record)
    (batch_size : Nat) (hbs : 0 < batch_size) :
    (batch_processing table batch_size).flatten = table.filter age_over_25 := by
  unfold batch_processing
  rw [flatten_filter_nonEmpty, flatten_map_filter,
    stream_users_in_batches_flatten table batch_size hbs]

/-- Witness for C10 at the concrete five-row table with `batch_size = 2`. -/
theorem c10_witness :
    0 < 2 ∧
      (batch_processing demoTable 2).flatten = demoTable.filter age_over_25 :=
  ⟨by decide, c10_filter_commutes_with_batching demoTable 2 (by decide)⟩

end Generators
